import Mathlib

/-!
Shallow embedding of the sandbox core of the SQL window-function cheat-sheet
application (src/window_functions_streamlit_app.py): the dataset provisioner
`create_sample_data`, the query executor `execute_query`, the cached store
opener `init_database`, the window-function semantics exercised by the catalog
queries, and the sidebar reaction-button state machine.
-/

/-- A calendar date, as produced by `datetime(year, month, day)` in the
generator; only the fields the generator sets are modelled. -/
structure SDate where
  year : Nat
  month : Nat
  day : Nat
deriving DecidableEq, Repr

/-- Strict chronological order on dates, lexicographic on
(year, month, day). -/
def dateLtB (a b : SDate) : Bool :=
  decide (a.year < b.year) ||
    (decide (a.year = b.year) &&
      (decide (a.month < b.month) ||
        (decide (a.month = b.month) && decide (a.day < b.day))))

/-- `datetime(2024, 1, 1) + timedelta(days=d)` for the offsets the generator
uses (all results fall in January or February 2024, and February 2024 has 29
days, so `d ≤ 59` stays in range; the generator uses `d ≤ 38`). -/
def addDaysJan2024 (d : Nat) : SDate :=
  if 1 + d ≤ 31 then ⟨2024, 1, 1 + d⟩ else ⟨2024, 2, 1 + d - 31⟩

/-- A row of the `employees` table (line 48 of the source). -/
structure Emp where
  employee_id : Nat
  employee_name : String
  department : String
  salary : Nat
  hire_date : String
deriving DecidableEq, Repr

/-- A row of the `sales` table (line 57 of the source). -/
structure Sale where
  sale_id : Nat
  sale_date : SDate
  product : String
  amount : Nat
  region : String
deriving DecidableEq, Repr

/-- A row of the `orders` table (line 66 of the source). -/
structure Order where
  order_id : Nat
  customer_id : Nat
  customer_name : String
  order_date : SDate
  order_amount : Nat
deriving DecidableEq, Repr

/-- A row of the `performance` table (line 75 of the source). -/
structure Perf where
  employee_id : Nat
  month : String
  revenue : Nat
  target : Nat
deriving DecidableEq, Repr

/-- Column list `product` of `sales_data` (line 60). -/
def salesProductCol : List String :=
  ["A", "B", "A", "C", "B", "A", "C", "B", "A", "C",
   "B", "A", "C", "B", "A", "C", "B", "A", "C", "B"]

/-- Column list `amount` of `sales_data` (line 61). -/
def salesAmountCol : List Nat :=
  [100, 150, 120, 200, 180, 140, 220, 160, 130, 210,
   190, 150, 230, 170, 140, 250, 200, 160, 240, 210]

/-- Column list `region` of `sales_data` (line 62). -/
def salesRegionCol : List String :=
  ["North", "South", "North", "South", "East", "West", "East", "West", "North", "South",
   "North", "South", "East", "West", "East", "West", "North", "South", "North", "South"]

/-- Column list `customer_id` of `orders_data` (line 68). -/
def ordersCustomerIdCol : List Nat :=
  [1, 1, 1, 2, 2, 2, 3, 3, 4, 4, 5, 5, 5, 6, 6, 7, 7, 8, 8, 9]

/-- Column list `customer_name` of `orders_data` (line 69). -/
def ordersCustomerNameCol : List String :=
  ["John", "John", "John", "Jane", "Jane", "Jane", "Mike", "Mike", "Sarah", "Sarah",
   "Tom", "Tom", "Tom", "Alice", "Alice", "Bob", "Bob", "Carol", "Carol", "David"]

/-- Column list `order_amount` of `orders_data` (line 71). -/
def ordersAmountCol : List Nat :=
  [100, 250, 150, 200, 300, 250, 120, 180, 90, 140,
   250, 200, 180, 160, 220, 140, 190, 230, 200, 150]

/-- The `order_date` comprehension of line 70:
`datetime(2024, 1, i*2+1) if i*2+1 <= 31 else datetime(2024, 2, (i*2+1)%31)`. -/
def orderDate (i : Nat) : SDate :=
  if i * 2 + 1 ≤ 31 then ⟨2024, 1, i * 2 + 1⟩ else ⟨2024, 2, (i * 2 + 1) % 31⟩

/-- `create_sample_data` (lines 45-88): builds the four in-memory tables from
fixed literal columns and deterministic date arithmetic, and returns them as a
4-tuple (employees, sales, orders, performance). -/
def create_sample_data (_ : Unit) : List Emp × List Sale × List Order × List Perf :=
  let employees : List Emp :=
    [⟨1, "Alice", "Sales", 60000, "2020-01-15"⟩,
     ⟨2, "Bob", "Sales", 75000, "2019-03-20"⟩,
     ⟨3, "Charlie", "Sales", 55000, "2021-06-10"⟩,
     ⟨4, "Diana", "IT", 85000, "2018-02-01"⟩,
     ⟨5, "Eve", "IT", 90000, "2017-08-15"⟩,
     ⟨6, "Frank", "IT", 80000, "2019-11-30"⟩,
     ⟨7, "Grace", "HR", 65000, "2020-05-10"⟩,
     ⟨8, "Henry", "HR", 70000, "2021-02-20"⟩,
     ⟨9, "Iris", "Finance", 72000, "2019-04-15"⟩,
     ⟨10, "Jack", "Finance", 68000, "2022-01-10"⟩]
  let sales : List Sale :=
    (List.range 20).map fun i =>
      ⟨i + 1, addDaysJan2024 (i * 2), salesProductCol.getD i "",
        salesAmountCol.getD i 0, salesRegionCol.getD i ""⟩
  let orders : List Order :=
    (List.range 20).map fun i =>
      ⟨i + 1, ordersCustomerIdCol.getD i 0, ordersCustomerNameCol.getD i "",
        orderDate i, ordersAmountCol.getD i 0⟩
  let performance : List Perf :=
    [⟨1, "Jan 2024", 5000, 5000⟩, ⟨2, "Jan 2024", 7500, 6000⟩,
     ⟨3, "Jan 2024", 4500, 5000⟩, ⟨4, "Jan 2024", 8500, 8000⟩,
     ⟨5, "Jan 2024", 9000, 8500⟩, ⟨6, "Feb 2024", 6000, 5000⟩,
     ⟨7, "Feb 2024", 8000, 6000⟩, ⟨8, "Feb 2024", 5500, 5000⟩,
     ⟨9, "Feb 2024", 9500, 8000⟩, ⟨10, "Feb 2024", 7000, 8500⟩]
  (employees, sales, orders, performance)

/-- The mutable contents of the in-memory SQLite database: the four tables
loaded by `init_database` via `to_sql` (lines 109-112). -/
structure DB where
  employees : List Emp
  sales : List Sale
  orders : List Order
  performance : List Perf
deriving DecidableEq, Repr

/-- The four tables as loaded into a fresh store. -/
def sandboxDB : DB :=
  { employees := (create_sample_data ()).1
    sales := (create_sample_data ()).2.1
    orders := (create_sample_data ()).2.2.1
    performance := (create_sample_data ()).2.2.2 }

/-- A materialized query result handed back by the engine: the contents of one
of the four tables, as `pd.read_sql_query` materializes a `SELECT *`. -/
inductive ResultTable where
  | empRows (rows : List Emp)
  | saleRows (rows : List Sale)
  | orderRows (rows : List Order)
  | perfRows (rows : List Perf)
deriving DecidableEq, Repr

/-- Names of the four sandbox tables. -/
inductive TableName where
  | employees
  | sales
  | orders
  | performance
deriving DecidableEq, Repr

/-- The modelled fragment of SQL statements: full-table selects, full-table
deletes, and everything else (treated as failing to prepare). -/
inductive Stmt where
  | selectAll (t : TableName)
  | deleteAll (t : TableName)
  | invalid
deriving DecidableEq, Repr

/-- Statement classifier for the modelled fragment: a `SELECT * FROM t` or
`DELETE FROM t` naming one of the four tables, everything else failing to
prepare. -/
def parseStmt (q : String) : Stmt :=
  if q = "SELECT * FROM employees" then Stmt.selectAll TableName.employees
  else if q = "SELECT * FROM sales" then Stmt.selectAll TableName.sales
  else if q = "SELECT * FROM orders" then Stmt.selectAll TableName.orders
  else if q = "SELECT * FROM performance" then Stmt.selectAll TableName.performance
  else if q = "DELETE FROM employees" then Stmt.deleteAll TableName.employees
  else if q = "DELETE FROM sales" then Stmt.deleteAll TableName.sales
  else if q = "DELETE FROM orders" then Stmt.deleteAll TableName.orders
  else if q = "DELETE FROM performance" then Stmt.deleteAll TableName.performance
  else Stmt.invalid

/-- Read one table's rows out of the database. -/
def readTable (t : TableName) (db : DB) : ResultTable :=
  match t with
  | TableName.employees => ResultTable.empRows db.employees
  | TableName.sales => ResultTable.saleRows db.sales
  | TableName.orders => ResultTable.orderRows db.orders
  | TableName.performance => ResultTable.perfRows db.performance

/-- Remove all rows of one table. -/
def clearTable (t : TableName) (db : DB) : DB :=
  match t with
  | TableName.employees => { db with employees := [] }
  | TableName.sales => { db with sales := [] }
  | TableName.orders => { db with orders := [] }
  | TableName.performance => { db with performance := [] }

/-- Modelled from the spec: the underlying relational engine
(`sqlite3` driven through `pandas.read_sql_query`, line 94) is library code
not in src/. Spec sections 4.3 and 9 state that the executor delegates to the
engine with no explicit read-only guard and inherits its default behavior, so
a destructive statement is executed before pandas fails to materialize a
result frame (a statement with no result columns raises inside pandas after
the engine has already run it), while a statement that fails to prepare
raises without touching any table. The outcome is the raised diagnostic or
the materialized rows, paired with the (possibly mutated) connection state. -/
def sqlitePandasEngine (q : String) (db : DB) : Except String ResultTable × DB :=
  match parseStmt q with
  | Stmt.selectAll t => (Except.ok (readTable t db), db)
  | Stmt.deleteAll t =>
      (Except.error "NoneType object is not iterable", clearTable t db)
  | Stmt.invalid =>
      (Except.error "Execution failed on sql: syntax error", db)

/-- `execute_query` (lines 91-97): run the query through the engine inside a
try/except; on success return `(result, None)`, on any raised exception
return `(None, str(e))`. The engine is a parameter so the executor's contract
can be stated for every engine behavior; the raised message is returned
verbatim and the connection state is whatever the engine left behind. -/
def execute_query (engine : String → DB → Except String ResultTable × DB)
    (query : String) (conn : DB) : (Option ResultTable × Option String) × DB :=
  match engine query conn with
  | (Except.ok r, dbAfter) => ((some r, none), dbAfter)
  | (Except.error e, dbAfter) => ((none, some e), dbAfter)

/-- A live connection handle: an engine instance identity together with its
table contents. -/
structure Conn where
  connId : Nat
  db : DB
deriving DecidableEq, Repr

/-- The body of `init_database` (lines 103-114): connect to a fresh private
in-memory SQLite instance and load the four tables produced by
`create_sample_data` with `to_sql`. The fresh instance identity is supplied
by the caller's world state. -/
def init_database_body (freshId : Nat) : Conn :=
  ⟨freshId, sandboxDB⟩

/-- `init_database` as called (line 122): the body is wrapped in
`@st.cache_resource` (line 102), which memoizes the connection per process —
a call with a populated cache returns the cached connection object itself;
only a call with an empty cache runs the body and stores its result. The
world state is the cache contents together with a fresh-identity supply. -/
def init_database (w : Option Conn × Nat) : Conn × (Option Conn × Nat) :=
  match w.1 with
  | some c => (c, w)
  | none =>
      let c := init_database_body w.2
      (c, (some c, w.2 + 1))

/-- A cache state is well formed when any cached connection holds the sandbox
tables (the only way `init_database` ever populates it). -/
def WfCache (o : Option Conn) : Prop :=
  ∀ c, o = some c → c.db = sandboxDB

/-- Semantics of the running-total query of lines 342-355:
`SUM(salary) OVER (PARTITION BY department ORDER BY employee_id ROWS BETWEEN
UNBOUNDED PRECEDING AND CURRENT ROW)` evaluated at row `e` — the sum of
`salary` over the rows of `e`'s department whose `employee_id` is at most
`e`'s. -/
def runningTotalAt (emps : List Emp) (e : Emp) : Nat :=
  ((emps.filter fun x =>
      decide (x.department = e.department) && decide (x.employee_id ≤ e.employee_id)).map
    (fun x => x.salary)).sum

/-- The plain partition sum: `SUM(salary)` over all rows of one department. -/
def deptSalarySum (emps : List Emp) (d : String) : Nat :=
  ((emps.filter fun x => decide (x.department = d)).map (fun x => x.salary)).sum

/-- The salary carried by the last row, in `employee_id` order, of a window:
the row with the maximal `employee_id` in the given row set. Models picking
the last row of a frame whose intra-partition order is `ORDER BY
employee_id`. -/
def lastRowSalaryById (rows : List Emp) : Nat :=
  (rows.foldl (fun acc x => if acc.1 ≤ x.employee_id then (x.employee_id, x.salary) else acc)
    (0, 0)).2

/-- `LAST_VALUE(salary)` under the default frame (`RANGE BETWEEN UNBOUNDED
PRECEDING AND CURRENT ROW`, spec section 4.3) with `PARTITION BY department
ORDER BY employee_id`: the last row of the frame consisting of the current
row's department rows with `employee_id` at most the current row's
(`employee_id` is unique, so the current row has no peers). Models the
wrong-frame query of lines 1167-1173. -/
def lastValueDefaultFrame (emps : List Emp) (e : Emp) : Nat :=
  lastRowSalaryById (emps.filter fun x =>
    decide (x.department = e.department) && decide (x.employee_id ≤ e.employee_id))

/-- `LAST_VALUE(salary)` with the frame widened to `ROWS BETWEEN UNBOUNDED
PRECEDING AND UNBOUNDED FOLLOWING` (lines 1176-1184): the last row, in
`employee_id` order, of the whole department partition. -/
def lastValueFullFrame (emps : List Emp) (e : Emp) : Nat :=
  lastRowSalaryById (emps.filter fun x => decide (x.department = e.department))

/-- Bucket (1-based) of the 0-based position `pos` when the first `r` buckets
hold `q + 1` consecutive positions each and the remaining buckets hold `q`
consecutive positions each. -/
def ntileFormula (q r pos : Nat) : Nat :=
  if pos < r * (q + 1) then pos / (q + 1) + 1
  else r + (pos - r * (q + 1)) / q + 1

/-- `NTILE(n)` bucket (1-based) of the row at 0-based position `pos` of an
`N`-row ordered partition, per the engine semantics the query of lines
648-655 relies on: the first `N % n` buckets hold `N / n + 1` rows, the rest
hold `N / n` rows, in partition order. -/
def ntile (n N pos : Nat) : Nat :=
  ntileFormula (N / n) (N % n) pos

/-- Number of rows of an `N`-row ordered partition that `NTILE(n)` assigns to
bucket `b`. -/
def ntileBucketSize (n N b : Nat) : Nat :=
  ((Finset.range N).filter fun pos => ntile n N pos = b).card

/-- `RANK()` of a row carrying order-by value `v` in a result set sorted
descending on that value (the queries of lines 580-588 and 614-622 use
`ORDER BY amount DESC`): one more than the number of rows strictly ahead of
the row's tie group. -/
def rankOfValue (l : List Nat) (v : Nat) : Nat :=
  1 + l.countP fun x => decide (v < x)

/-- `RANK()` of the row at 0-based position `p` of the sorted result set. -/
def rankAt (l : List Nat) (p : Nat) : Nat :=
  rankOfValue l (l.getD p 0)

/-- `DENSE_RANK()` of a row carrying order-by value `v`: one more than the
number of distinct values strictly ahead of it. -/
def denseRankOfValue (l : List Nat) (v : Nat) : Nat :=
  1 + (l.toFinset.filter fun x => v < x).card

/-- `DENSE_RANK()` of the row at 0-based position `p` of the sorted result
set. -/
def denseRankAt (l : List Nat) (p : Nat) : Nat :=
  denseRankOfValue l (l.getD p 0)

/-- `ROW_NUMBER()` of the row at 0-based position `p`. -/
def rowNumberAt (p : Nat) : Nat :=
  p + 1

/-- The sidebar reaction widget's session state (lines 166-177): the three
per-button disabled flags and the three counters. -/
structure ReactState where
  disabled_love : Bool
  disabled_like : Bool
  disabled_smile : Bool
  loves : Nat
  likes : Nat
  smiles : Nat
deriving DecidableEq, Repr

/-- The session-initial reaction state: all flags false, all counters zero. -/
def initReact : ReactState :=
  ⟨false, false, false, 0, 0, 0⟩

/-- The three reaction buttons. -/
inductive Choice where
  | love
  | like
  | smile
deriving DecidableEq, Repr

/-- One click on a reaction button (lines 179-201): a button click is only
delivered when that button's disabled flag is false (`st.button` with
`disabled=True` cannot fire); a delivered click increments its counter and
sets all three disabled flags. -/
def reactStep (s : ReactState) (c : Choice) : ReactState :=
  match c with
  | Choice.love =>
      if s.disabled_love then s
      else { s with loves := s.loves + 1,
                    disabled_love := true, disabled_like := true, disabled_smile := true }
  | Choice.like =>
      if s.disabled_like then s
      else { s with likes := s.likes + 1,
                    disabled_love := true, disabled_like := true, disabled_smile := true }
  | Choice.smile =>
      if s.disabled_smile then s
      else { s with smiles := s.smiles + 1,
                    disabled_love := true, disabled_like := true, disabled_smile := true }

/-- A session state reachable from the initial state by a sequence of button
clicks. -/
def ReactReachable (s : ReactState) : Prop :=
  ∃ cs : List Choice, s = cs.foldl reactStep initReact

/-- A row is the last row of its department partition in `employee_id` order:
every same-department row has an `employee_id` at most its own. -/
def isLastOfDept (emps : List Emp) (e : Emp) : Prop :=
  ∀ x ∈ emps, x.department = e.department → x.employee_id ≤ e.employee_id

instance (emps : List Emp) (e : Emp) : Decidable (isLastOfDept emps e) :=
  inferInstanceAs (Decidable (∀ x ∈ emps,
    x.department = e.department → x.employee_id ≤ e.employee_id))

/-- Invariant of the reaction widget: either nothing was ever selected (all
flags false, all counters zero) or exactly one selection happened (all flags
true, counters summing to one). -/
def reactInv (s : ReactState) : Prop :=
  (s.disabled_love = false ∧ s.disabled_like = false ∧ s.disabled_smile = false ∧
    s.loves = 0 ∧ s.likes = 0 ∧ s.smiles = 0) ∨
  (s.disabled_love = true ∧ s.disabled_like = true ∧ s.disabled_smile = true ∧
    s.loves + s.likes + s.smiles = 1)

theorem reactInv_step (s : ReactState) (c : Choice) (h : reactInv s) :
    reactInv (reactStep s c) := by
  rcases h with ⟨h1, h2, h3, h4, h5, h6⟩ | ⟨h1, h2, h3, h4⟩ <;> cases c <;>
    simp [reactStep, reactInv, h1, h2, h3] <;> omega

theorem reactInv_foldl (cs : List Choice) (s : ReactState) (h : reactInv s) :
    reactInv (cs.foldl reactStep s) := by
  induction cs generalizing s with
  | nil => exact h
  | cons c cs ih => exact ih (reactStep s c) (reactInv_step s c h)

/-- C9: the reaction widget is a state machine whose only valid transition is
a first selection: a click from the initial state increments exactly one
counter and disables all three buttons; in every reachable session state the
three counters sum to at most one, and once a selection happened every
further click leaves the state unchanged. -/
theorem reaction_single_selection :
    (∀ c : Choice,
      (reactStep initReact c).loves + (reactStep initReact c).likes +
          (reactStep initReact c).smiles = 1 ∧
      (reactStep initReact c).disabled_love = true ∧
      (reactStep initReact c).disabled_like = true ∧
      (reactStep initReact c).disabled_smile = true) ∧
    (∀ s, ReactReachable s →
      s.loves + s.likes + s.smiles ≤ 1 ∧
      (s.loves + s.likes + s.smiles = 1 → ∀ c, reactStep s c = s)) := by
  constructor
  · intro c
    cases c <;> simp [reactStep, initReact]
  · intro s hs
    rcases hs with ⟨cs, rfl⟩
    have hinv := reactInv_foldl cs initReact (Or.inl ⟨rfl, rfl, rfl, rfl, rfl, rfl⟩)
    rcases hinv with ⟨h1, h2, h3, h4, h5, h6⟩ | ⟨h1, h2, h3, h4⟩
    · refine ⟨by omega, fun hsum => ?_⟩
      omega
    · refine ⟨by omega, fun _ c => ?_⟩
      cases c <;> simp [reactStep, h1, h2, h3]

/-- C9 witness: the state after a single love click is reachable and its
counters sum to at most one. -/
theorem reaction_single_selection_witness :
    (reactStep initReact Choice.love).loves + (reactStep initReact Choice.love).likes +
        (reactStep initReact Choice.love).smiles ≤ 1 :=
  (reaction_single_selection.2 (reactStep initReact Choice.love)
    ⟨[Choice.love], rfl⟩).1

/-- C2: `execute_query` is total at its interface for every engine behavior:
it never propagates a raised exception; when the engine succeeds it returns
the materialized result with no error, and when the engine raises it returns
no result together with the engine diagnostic verbatim, in both cases passing
the engine's resulting connection state through. -/
theorem execute_query_total_and_verbatim :
    ∀ (engine : String → DB → Except String ResultTable × DB) (q : String) (db : DB),
      (∃ r dbAfter, engine q db = (Except.ok r, dbAfter) ∧
        execute_query engine q db = ((some r, none), dbAfter)) ∨
      (∃ m dbAfter, engine q db = (Except.error m, dbAfter) ∧
        execute_query engine q db = ((none, some m), dbAfter)) := by
  intro engine q db
  rcases h : engine q db with ⟨res, dbAfter⟩
  cases res with
  | ok r => exact Or.inl ⟨r, dbAfter, rfl, by simp [execute_query, h]⟩
  | error m => exact Or.inr ⟨m, dbAfter, rfl, by simp [execute_query, h]⟩

/-- C3: dataset provisioning is pure and deterministic — two calls to
`create_sample_data` yield identical tables — and the row counts are exactly
10 employees, 20 sales, 20 orders and 10 performance rows. -/
theorem create_sample_data_deterministic_cardinalities :
    create_sample_data () = create_sample_data () ∧
    (create_sample_data ()).1.length = 10 ∧
    (create_sample_data ()).2.1.length = 20 ∧
    (create_sample_data ()).2.2.1.length = 20 ∧
    (create_sample_data ()).2.2.2.length = 10 :=
  ⟨rfl, rfl, rfl, rfl, rfl⟩

/-- C10: in the generated `orders` table, `order_date` is strictly increasing
in `order_id`; the January-to-February wrap-around arithmetic of the date
comprehension never produces a duplicate or out-of-order date. -/
theorem order_dates_strictly_increasing :
    ∀ a ∈ (create_sample_data ()).2.2.1, ∀ b ∈ (create_sample_data ()).2.2.1,
      a.order_id < b.order_id → dateLtB a.order_date b.order_date = true := by
  decide

/-- C10 witness: the first two generated orders are in strict date order. -/
theorem order_dates_strictly_increasing_witness :
    dateLtB ⟨2024, 1, 1⟩ ⟨2024, 1, 3⟩ = true :=
  order_dates_strictly_increasing
    ⟨1, 1, "John", ⟨2024, 1, 1⟩, 100⟩ (by decide)
    ⟨2, 1, "John", ⟨2024, 1, 3⟩, 250⟩ (by decide) (by decide)

/-- C5: on the provisioned employees table, the running total
`SUM(salary) OVER (PARTITION BY department ORDER BY employee_id ROWS BETWEEN
UNBOUNDED PRECEDING AND CURRENT ROW)` evaluated at the last row of a
department partition equals the plain sum of `salary` over that whole
department. -/
theorem running_total_last_row_is_partition_sum :
    ∀ e ∈ (create_sample_data ()).1, isLastOfDept (create_sample_data ()).1 e →
      runningTotalAt (create_sample_data ()).1 e =
        deptSalarySum (create_sample_data ()).1 e.department := by
  decide

/-- C5 witness: Charlie holds the maximal employee_id of the Sales
department, and his running total equals the Sales salary sum. -/
theorem running_total_last_row_witness :
    runningTotalAt (create_sample_data ()).1 ⟨3, "Charlie", "Sales", 55000, "2021-06-10"⟩ =
      deptSalarySum (create_sample_data ()).1 "Sales" :=
  running_total_last_row_is_partition_sum
    ⟨3, "Charlie", "Sales", 55000, "2021-06-10"⟩ (by decide) (by decide)

/-- C6: on the provisioned employees table with `PARTITION BY department
ORDER BY employee_id`, `LAST_VALUE(salary)` under the default frame returns
every row's own salary, while under the frame widened to `ROWS BETWEEN
UNBOUNDED PRECEDING AND UNBOUNDED FOLLOWING` it returns, for every row, the
salary of the department's maximum-employee_id row. -/
theorem last_value_frame_sensitivity :
    ∀ e ∈ (create_sample_data ()).1,
      lastValueDefaultFrame (create_sample_data ()).1 e = e.salary ∧
      ∀ m ∈ (create_sample_data ()).1, m.department = e.department →
        isLastOfDept (create_sample_data ()).1 m →
        lastValueFullFrame (create_sample_data ()).1 e = m.salary := by
  decide

/-- C6 witness: for Alice the default frame returns her own salary 60000 and
the widened frame returns 55000, the salary of Sales row with the maximal
employee_id (Charlie). -/
theorem last_value_frame_sensitivity_witness :
    lastValueDefaultFrame (create_sample_data ()).1
        ⟨1, "Alice", "Sales", 60000, "2020-01-15"⟩ = 60000 ∧
    lastValueFullFrame (create_sample_data ()).1
        ⟨1, "Alice", "Sales", 60000, "2020-01-15"⟩ = 55000 := by
  have h := last_value_frame_sensitivity
    ⟨1, "Alice", "Sales", 60000, "2020-01-15"⟩ (by decide)
  exact ⟨h.1, h.2 ⟨3, "Charlie", "Sales", 55000, "2021-06-10"⟩ (by decide) rfl (by decide)⟩

/-- C1: the claim says every SQL text leaves the four sandbox tables
unchanged, destructive statements included; evaluating the code at the
failing input `DELETE FROM employees` shows the engine executes the delete
before pandas raises, so `execute_query` returns an error yet the connection
comes back with the employees table emptied from its initial 10 rows. -/
theorem execute_query_delete_mutates_tables :
    (execute_query sqlitePandasEngine "DELETE FROM employees" sandboxDB).2.employees = [] ∧
    sandboxDB.employees.length = 10 ∧
    (execute_query sqlitePandasEngine "DELETE FROM employees" sandboxDB).1.2 =
      some "NoneType object is not iterable" ∧
    (execute_query sqlitePandasEngine "DELETE FROM employees" sandboxDB).2 ≠ sandboxDB := by
  refine ⟨by decide, by decide, by decide, fun h => ?_⟩
  have h2 : sandboxDB.employees = [] := by rw [← h]; decide
  have h3 : sandboxDB.employees.length = 10 := by decide
  rw [h2] at h3
  exact absurd h3 (by decide)

/-- C4 counterexample: the claim says each call to `init_database` constructs
a new private engine instance and never reuses a previously returned store;
because of `@st.cache_resource`, starting from an empty cache the second call
returns exactly the store the first call returned (the same instance, not a
new one). -/
theorem init_database_second_call_reuses_store :
    (init_database (init_database (none, 0)).2).1 = (init_database (none, 0)).1 :=
  rfl

/-- C4 amended: every call to `init_database` yields a store whose four
tables hold the sandbox contents, the cache stays well formed, and a call
finding a cached store returns that same store unmutated — the body
constructs a fresh instance only when the cache is empty, so repeated calls
reuse the first call's store rather than constructing a new one. -/
theorem init_database_contents_stable :
    ∀ w : Option Conn × Nat, WfCache w.1 →
      (init_database w).1.db = sandboxDB ∧
      WfCache (init_database w).2.1 ∧
      ∀ c, w.1 = some c → (init_database w).1 = c := by
  intro w hw
  rcases w with ⟨cache, n⟩
  cases cache with
  | none =>
      refine ⟨rfl, ?_, ?_⟩
      · intro c hc
        cases hc
        rfl
      · intro c hc
        exact absurd hc (by simp)
  | some c =>
      refine ⟨hw c rfl, ?_, ?_⟩
      · exact hw
      · intro x hx
        cases hx
        rfl


theorem ntileFormula_eq_iff_of_lt (q r b pos : Nat) (hbr : b < r) :
    ntileFormula q r pos = b + 1 ↔
      b * (q + 1) ≤ pos ∧ pos < (b + 1) * (q + 1) := by
  unfold ntileFormula
  by_cases hlt : pos < r * (q + 1)
  · rw [if_pos hlt]
    constructor
    · intro heq
      have hdiv : pos / (q + 1) = b := by omega
      have h1 : b ≤ pos / (q + 1) := le_of_eq hdiv.symm
      have h2 : pos / (q + 1) < b + 1 := by omega
      exact ⟨(Nat.le_div_iff_mul_le (Nat.succ_pos q)).mp h1,
        (Nat.div_lt_iff_lt_mul (Nat.succ_pos q)).mp h2⟩
    · rintro ⟨h1, h2⟩
      have h3 : b ≤ pos / (q + 1) := (Nat.le_div_iff_mul_le (Nat.succ_pos q)).mpr h1
      have h4 : pos / (q + 1) < b + 1 := (Nat.div_lt_iff_lt_mul (Nat.succ_pos q)).mpr h2
      omega
  · rw [if_neg hlt]
    constructor
    · intro heq
      generalize hg : (pos - r * (q + 1)) / q = d at heq
      omega
    · rintro ⟨h1, h2⟩
      have h3 : (b + 1) * (q + 1) ≤ r * (q + 1) := Nat.mul_le_mul_right (q + 1) hbr
      omega

theorem ntileFormula_eq_iff_of_ge (q r b pos : Nat) (hq : 0 < q) (hbr : r ≤ b) :
    ntileFormula q r pos = b + 1 ↔
      r * (q + 1) + (b - r) * q ≤ pos ∧ pos < r * (q + 1) + (b - r + 1) * q := by
  obtain ⟨m, hm⟩ := Nat.le.dest hbr
  subst hm
  have hsub : r + m - r = m := by omega
  rw [hsub]
  unfold ntileFormula
  by_cases hlt : pos < r * (q + 1)
  · rw [if_pos hlt]
    constructor
    · intro heq
      have h1 : pos / (q + 1) < r := (Nat.div_lt_iff_lt_mul (Nat.succ_pos q)).mpr hlt
      omega
    · rintro ⟨h1, h2⟩
      omega
  · rw [if_neg hlt]
    constructor
    · intro heq
      have hdiv : (pos - r * (q + 1)) / q = m := by
        generalize hg : (pos - r * (q + 1)) / q = d at heq
        omega
      have h1 : m ≤ (pos - r * (q + 1)) / q := le_of_eq hdiv.symm
      have h2 : (pos - r * (q + 1)) / q < m + 1 := by omega
      have h3 : m * q ≤ pos - r * (q + 1) := (Nat.le_div_iff_mul_le hq).mp h1
      have h4 : pos - r * (q + 1) < (m + 1) * q := (Nat.div_lt_iff_lt_mul hq).mp h2
      omega
    · rintro ⟨h1, h2⟩
      have h3 : m ≤ (pos - r * (q + 1)) / q :=
        (Nat.le_div_iff_mul_le hq).mpr (by omega)
      have h4 : (pos - r * (q + 1)) / q < m + 1 :=
        (Nat.div_lt_iff_lt_mul hq).mpr (by omega)
      omega

theorem ntileFormula_bucket_size (q r b n : Nat) (hb : b < n) (hrn : r < n) :
    ((Finset.range (n * q + r)).filter fun pos => ntileFormula q r pos = b + 1).card =
      q + if b < r then 1 else 0 := by
  by_cases hbr : b < r
  · rw [if_pos hbr]
    have hEq : ((Finset.range (n * q + r)).filter fun pos => ntileFormula q r pos = b + 1) =
        Finset.Ico (b * (q + 1)) ((b + 1) * (q + 1)) := by
      ext pos
      simp only [Finset.mem_filter, Finset.mem_range, Finset.mem_Ico,
        ntileFormula_eq_iff_of_lt q r b pos hbr]
      constructor
      · rintro ⟨hp, h1, h2⟩
        exact ⟨h1, h2⟩
      · rintro ⟨h1, h2⟩
        refine ⟨?_, h1, h2⟩
        have e1 : (b + 1) * (q + 1) ≤ r * (q + 1) := Nat.mul_le_mul_right (q + 1) hbr
        have e2 : r * (q + 1) = r * q + r := by ring
        have e3 : r * q ≤ n * q := Nat.mul_le_mul_right q (le_of_lt hrn)
        omega
    rw [hEq, Nat.card_Ico]
    have e4 : (b + 1) * (q + 1) = b * (q + 1) + (q + 1) := by ring
    omega
  · rw [if_neg hbr]
    have hrb : r ≤ b := Nat.not_lt.mp hbr
    by_cases hq : q = 0
    · subst hq
      have hEq : ((Finset.range (n * 0 + r)).filter fun pos => ntileFormula 0 r pos = b + 1) =
          ∅ := by
        ext pos
        simp only [Finset.mem_filter, Finset.mem_range, Finset.not_mem_empty, iff_false,
          not_and]
        intro hp
        unfold ntileFormula
        have hlt : pos < r * (0 + 1) := by omega
        rw [if_pos hlt]
        have hone : pos / (0 + 1) = pos := Nat.div_one pos
        omega
      rw [hEq]
      simp
    · have hq0 : 0 < q := Nat.pos_of_ne_zero hq
      have hEq : ((Finset.range (n * q + r)).filter fun pos => ntileFormula q r pos = b + 1) =
          Finset.Ico (r * (q + 1) + (b - r) * q) (r * (q + 1) + (b - r + 1) * q) := by
        ext pos
        simp only [Finset.mem_filter, Finset.mem_range, Finset.mem_Ico,
          ntileFormula_eq_iff_of_ge q r b pos hq0 hrb]
        constructor
        · rintro ⟨hp, h1, h2⟩
          exact ⟨h1, h2⟩
        · rintro ⟨h1, h2⟩
          refine ⟨?_, h1, h2⟩
          obtain ⟨m, hm⟩ := Nat.le.dest hrb
          have hbm : b - r = m := by omega
          rw [hbm] at h2
          have e1 : r * (q + 1) + (m + 1) * q = (r + m + 1) * q + r := by ring
          have e2 : (r + m + 1) * q ≤ n * q := Nat.mul_le_mul_right q (by omega)
          omega
      rw [hEq, Nat.card_Ico]
      have e3 : (b - r + 1) * q = (b - r) * q + q := by ring
      omega

theorem ntile_bucket_size_eq (n N b : Nat) (hn : 0 < n) (hb : b < n) :
    ntileBucketSize n N (b + 1) = N / n + if b < N % n then 1 else 0 := by
  have hmod : n * (N / n) + N % n = N := Nat.div_add_mod N n
  have h := ntileFormula_bucket_size (N / n) (N % n) b n hb (Nat.mod_lt N hn)
  rw [hmod] at h
  unfold ntileBucketSize
  simp only [ntile]
  exact h

/-- C7: `NTILE(4)` over the full 20-row orders result assigns exactly 5 rows
to each of the four buckets; on any 10-row partition it assigns bucket sizes
3, 3, 2, 2 in partition order; and in general, when the partition row count
is not evenly divisible, the earlier buckets each receive exactly one extra
row (each bucket holds `N / n` rows plus one more exactly when its index is
below `N % n`). -/
theorem ntile_quartile_bucket_sizes :
    (∀ b < 4, ntileBucketSize 4 ((create_sample_data ()).2.2.1.length) (b + 1) = 5) ∧
    (ntileBucketSize 4 10 1 = 3 ∧ ntileBucketSize 4 10 2 = 3 ∧
      ntileBucketSize 4 10 3 = 2 ∧ ntileBucketSize 4 10 4 = 2) ∧
    (∀ n N b, 0 < n → b < n →
      ntileBucketSize n N (b + 1) = N / n + if b < N % n then 1 else 0) := by
  refine ⟨by decide, by decide, fun n N b hn hb => ntile_bucket_size_eq n N b hn hb⟩

/-- C7 witness: instantiating the general clause at a 10-row partition and
`NTILE(4)` gives the first bucket 3 rows. -/
theorem ntile_quartile_bucket_sizes_witness : ntileBucketSize 4 10 1 = 3 :=
  ntile_quartile_bucket_sizes.2.2 4 10 0 (by decide) (by decide)

/-- C4 witness: a first call on an empty cache yields a store loaded with the
sandbox tables. -/
theorem init_database_contents_stable_witness :
    (init_database (none, 0)).1.db = sandboxDB :=
  (init_database_contents_stable (none, 0) (fun _ h => nomatch h)).1

theorem countP_lt_partition (l₁ l₂ : List Nat) (v k : Nat)
    (hbefore : ∀ x ∈ l₁, v < x) (hafter : ∀ x ∈ l₂, x < v) :
    (l₁ ++ (List.replicate k v ++ l₂)).countP (fun x => decide (v < x)) = l₁.length := by
  rw [List.countP_append, List.countP_append]
  have h1 : l₁.countP (fun x => decide (v < x)) = l₁.length :=
    List.countP_eq_length.mpr fun a ha => by simpa using hbefore a ha
  have h2 : (List.replicate k v).countP (fun x => decide (v < x)) = 0 := by
    simp [List.countP_replicate]
  have h3 : l₂.countP (fun x => decide (v < x)) = 0 :=
    List.countP_eq_zero.mpr fun a ha => by simpa using Nat.lt_asymm (hafter a ha)
  omega

theorem countP_lt_partition_next (l₁ t : List Nat) (v k v' : Nat)
    (hbefore : ∀ x ∈ l₁, v < x) (hafter : ∀ x ∈ v' :: t, x < v)
    (hsorted : List.Pairwise (fun a b => b ≤ a) (v' :: t)) :
    (l₁ ++ (List.replicate k v ++ (v' :: t))).countP (fun x => decide (v' < x)) =
      l₁.length + k := by
  rw [List.countP_append, List.countP_append]
  have hvv : v' < v := hafter v' (List.mem_cons_self v' t)
  have h1 : l₁.countP (fun x => decide (v' < x)) = l₁.length :=
    List.countP_eq_length.mpr fun a ha => by
      have := hbefore a ha
      simp
      omega
  have h2 : (List.replicate k v).countP (fun x => decide (v' < x)) = k := by
    simp [List.countP_replicate, hvv]
  have h3 : (v' :: t).countP (fun x => decide (v' < x)) = 0 :=
    List.countP_eq_zero.mpr fun a ha => by
      rcases List.mem_cons.mp ha with h | h
      · subst h
        simp
      · have := (List.pairwise_cons.mp hsorted).1 a h
        simp
        omega
  omega

theorem getD_group (l₁ l₂ : List Nat) (v k i : Nat) (h1 : l₁.length ≤ i)
    (h2 : i < l₁.length + k) :
    (l₁ ++ (List.replicate k v ++ l₂)).getD i 0 = v := by
  rw [List.getD_append_right l₁ _ 0 i h1]
  have hj : i - l₁.length < k := by omega
  rw [List.getD_append _ l₂ 0 _ (by simpa using hj)]
  simp [List.getD_eq_getElem?_getD, List.getElem?_replicate, hj]

theorem getD_next (l₁ t : List Nat) (v k v' : Nat) :
    (l₁ ++ (List.replicate k v ++ (v' :: t))).getD (l₁.length + k) 0 = v' := by
  rw [List.getD_append_right l₁ _ 0 _ (Nat.le_add_right _ _)]
  rw [Nat.add_sub_cancel_left l₁.length k]
  rw [List.getD_append_right _ _ 0 _ (by simp)]
  simp

theorem denseFilter_insert (l₁ t : List Nat) (v k v' : Nat) (hk : 0 < k)
    (hbefore : ∀ x ∈ l₁, v < x) (hafter : ∀ x ∈ v' :: t, x < v)
    (hsorted : List.Pairwise (fun a b => b ≤ a) (v' :: t)) :
    ((l₁ ++ (List.replicate k v ++ (v' :: t))).toFinset.filter fun x => v' < x) =
      insert v
        ((l₁ ++ (List.replicate k v ++ (v' :: t))).toFinset.filter fun x => v < x) := by
  have hvv : v' < v := hafter v' (List.mem_cons_self v' t)
  ext x
  simp only [Finset.mem_filter, Finset.mem_insert, List.mem_toFinset, List.mem_append,
    List.mem_replicate, List.mem_cons]
  constructor
  · rintro ⟨hmem, hx⟩
    rcases hmem with h | ⟨k0, rfl⟩ | rfl | h
    · exact Or.inr ⟨Or.inl h, hbefore x h⟩
    · exact Or.inl rfl
    · omega
    · have := (List.pairwise_cons.mp hsorted).1 x h
      omega
  · rintro (rfl | ⟨hmem, hx⟩)
    · exact ⟨Or.inr (Or.inl ⟨by omega, rfl⟩), hvv⟩
    · exact ⟨hmem, lt_trans hvv hx⟩

/-- C8: ranking tie semantics on a descending-sorted result decomposed as
rows strictly ahead (`l₁`), a tie group of `k` rows carrying value `v`, and
the strictly smaller tail (`l₂`): `RANK` assigns `l₁.length + 1` to every
tied row and the next distinct value receives that rank plus `k`;
`DENSE_RANK` assigns one common value to the tied rows and the next distinct
value receives it plus 1; `ROW_NUMBER` is strictly increasing regardless of
ties. -/
theorem ranking_tie_semantics (l₁ l₂ : List Nat) (v k : Nat) (hk : 0 < k)
    (hbefore : ∀ x ∈ l₁, v < x) (hafter : ∀ x ∈ l₂, x < v)
    (hsorted : List.Pairwise (fun a b => b ≤ a) l₂) :
    (∀ i, l₁.length ≤ i → i < l₁.length + k →
      rankAt (l₁ ++ (List.replicate k v ++ l₂)) i = l₁.length + 1) ∧
    (∀ v' t, l₂ = v' :: t →
      rankAt (l₁ ++ (List.replicate k v ++ l₂)) (l₁.length + k) = (l₁.length + 1) + k) ∧
    (∀ i j, l₁.length ≤ i → i < l₁.length + k → l₁.length ≤ j → j < l₁.length + k →
      denseRankAt (l₁ ++ (List.replicate k v ++ l₂)) i =
        denseRankAt (l₁ ++ (List.replicate k v ++ l₂)) j) ∧
    (∀ v' t, l₂ = v' :: t →
      denseRankAt (l₁ ++ (List.replicate k v ++ l₂)) (l₁.length + k) =
        denseRankAt (l₁ ++ (List.replicate k v ++ l₂)) l₁.length + 1) ∧
    (∀ i j : Nat, i < j → rowNumberAt i < rowNumberAt j) := by
  refine ⟨?_, ?_, ?_, ?_, ?_⟩
  · intro i h1 h2
    unfold rankAt rankOfValue
    rw [getD_group l₁ l₂ v k i h1 h2]
    rw [countP_lt_partition l₁ l₂ v k hbefore hafter]
    omega
  · rintro v' t rfl
    unfold rankAt rankOfValue
    rw [getD_next l₁ t v k v']
    rw [countP_lt_partition_next l₁ t v k v' hbefore hafter hsorted]
    omega
  · intro i j hi1 hi2 hj1 hj2
    unfold denseRankAt
    rw [getD_group l₁ l₂ v k i hi1 hi2, getD_group l₁ l₂ v k j hj1 hj2]
  · rintro v' t rfl
    unfold denseRankAt denseRankOfValue
    rw [getD_next l₁ t v k v']
    rw [getD_group l₁ (v' :: t) v k l₁.length (le_refl _) (by omega)]
    rw [denseFilter_insert l₁ t v k v' hk hbefore hafter hsorted]
    rw [Finset.card_insert_of_not_mem (by simp)]
    omega
  · intro i j h
    unfold rowNumberAt
    omega

/-- C8 witness: in the South-region sales partition sorted by amount
descending, `[210, 210, 200, 160, 150, 150]`, the leading tie group of size
2 makes the next distinct value rank 3 under `RANK` and one more than the
group value under `DENSE_RANK`. -/
theorem ranking_tie_semantics_witness :
    rankAt [210, 210, 200, 160, 150, 150] 2 = 3 ∧
    denseRankAt [210, 210, 200, 160, 150, 150] 2 =
      denseRankAt [210, 210, 200, 160, 150, 150] 0 + 1 := by
  have h := ranking_tie_semantics [] [200, 160, 150, 150] 210 2 (by decide)
    (by decide) (by decide) (by decide)
  exact ⟨h.2.1 200 [160, 150, 150] rfl, h.2.2.2.1 200 [160, 150, 150] rfl⟩
